import Mathlib

/-!
Verification development for the movie-dashboard BFF template shipped with
bffgen (`projects/python/movie-dashboard-bff`).  The Python sources are
shallowly embedded: timestamps are integers, `time.time()` becomes an
explicit `now` argument, exceptions become `Option`/sum results, and the
mutable objects become explicit state records threaded through the
functions.
-/

namespace MovieDashboard

/-! ## Circuit breaker (`utils/circuit_breaker.py`) -/

/-- `CircuitState` enum from `circuit_breaker.py`. -/
inductive CircuitState where
  | CLOSED
  | OPEN
  | HALF_OPEN
deriving DecidableEq, Repr

/-- The mutable fields of a `CircuitBreaker` instance (the `name` string and
the logger play no role in the semantics).  `timeout` is the `open_timeout`
duration; `last_failure_time` is `None` until the first failure. -/
structure CircuitBreaker where
  failure_threshold : Nat
  timeout : Int
  failure_count : Nat
  last_failure_time : Option Int
  state : CircuitState
deriving DecidableEq, Repr

/-- `CircuitBreaker.__init__`: `failure_count = 0`, `last_failure_time = None`,
`state = CLOSED`. -/
def mkCircuitBreaker (threshold : Nat) (timeout : Int) : CircuitBreaker :=
  { failure_threshold := threshold
  , timeout := timeout
  , failure_count := 0
  , last_failure_time := none
  , state := CircuitState.CLOSED }

/-- What the caller of `CircuitBreaker.call` observes: either the fast-fail
`CircuitOpen` exception (the operation was **not** invoked), or the operation
was invoked and its outcome (`true` = returned, `false` = raised) is
propagated. -/
inductive CallOutcome where
  | circuitOpen
  | invoked (ok : Bool)
deriving DecidableEq, Repr

/-- `CircuitBreaker.call`, with `time.time()` passed in as `now` and the
`settings.CIRCUIT_BREAKER_ENABLED` flag as `enabled`.  The supplied
operation is abstracted by its outcome `ok`.  The result is `none` exactly
when the Python code would crash comparing `None` with a number, i.e. when
the breaker is `OPEN` with `last_failure_time = None` (unreachable from the
initial state). -/
def CircuitBreaker.call (cb : CircuitBreaker) (enabled : Bool) (now : Int)
    (ok : Bool) : Option (CallOutcome × CircuitBreaker) :=
  if ¬enabled then
    some (CallOutcome.invoked ok, cb)
  else
    match (if cb.state = CircuitState.OPEN then
            match cb.last_failure_time with
            | none => none
            | some t =>
              if now - t ≥ cb.timeout then
                some (Sum.inl ({ cb with state := CircuitState.HALF_OPEN }))
              else
                some (Sum.inr cb)
           else
            some (Sum.inl cb) : Option (CircuitBreaker ⊕ CircuitBreaker)) with
    | none => none
    | some (Sum.inr cb') =>
      -- `raise Exception("Circuit ... is OPEN - failing fast")`
      some (CallOutcome.circuitOpen, cb')
    | some (Sum.inl cb') =>
      if ok then
        -- success branch: close the circuit after a HALF_OPEN probe
        if cb'.state = CircuitState.HALF_OPEN then
          some (CallOutcome.invoked true,
            { cb' with state := CircuitState.CLOSED, failure_count := 0 })
        else
          some (CallOutcome.invoked true, cb')
      else
        -- failure branch: count the failure, maybe open the circuit
        let cb'' := { cb' with
          failure_count := cb'.failure_count + 1
        , last_failure_time := some now }
        if cb''.failure_count ≥ cb''.failure_threshold then
          some (CallOutcome.invoked false,
            { cb'' with state := CircuitState.OPEN })
        else
          some (CallOutcome.invoked false, cb'')

/-- `CircuitBreaker.reset`. -/
def CircuitBreaker.reset (cb : CircuitBreaker) : CircuitBreaker :=
  { cb with
    state := CircuitState.CLOSED
  , failure_count := 0
  , last_failure_time := none }

/-- One step of a trace: apply `call` with the breaker enabled at time `t`
with operation outcome `ok`, keeping only the post-state. -/
def CircuitBreaker.stepTrace (cb : CircuitBreaker) (t : Int) (ok : Bool) :
    Option CircuitBreaker :=
  (cb.call true t ok).map Prod.snd

/-- Fold a list of `(time, outcome)` events through the breaker. -/
def CircuitBreaker.applyTrace (cb : CircuitBreaker) :
    List (Int × Bool) → Option CircuitBreaker
  | [] => some cb
  | e :: es => match cb.stepTrace e.1 e.2 with
    | none => none
    | some cb' => cb'.applyTrace es

/-- A breaker state reachable from a freshly constructed breaker through
call outcomes alone (no `reset`). -/
def ReachableBreaker (cb : CircuitBreaker) : Prop :=
  ∃ threshold timeout tr,
    CircuitBreaker.applyTrace (mkCircuitBreaker threshold timeout) tr = some cb

/-! ## JSON payloads

Cached payloads are arbitrary `json`-serialisable Python values.  Numbers
are modelled as rationals. -/

/-- A JSON value, as produced by `json.loads`. -/
inductive Json where
  | null
  | bool (b : Bool)
  | num (q : ℚ)
  | str (s : String)
  | arr (xs : List Json)
  | obj (fields : List (String × Json))

/-- Python truthiness of a JSON value: `None`, `False`, `0`, `""`, `[]` and
`{}` are falsy, everything else is truthy. -/
def Json.truthy : Json → Bool
  | Json.null => false
  | Json.bool b => b
  | Json.num q => decide (q ≠ 0)
  | Json.str s => decide (s ≠ "")
  | Json.arr [] => false
  | Json.arr (_ :: _) => true
  | Json.obj [] => false
  | Json.obj (_ :: _) => true

/-! ## Cache manager (`utils/cache_manager.py`)

The Redis backing store is modelled as an association list mapping each key
to the most recently stored value together with its absolute expiry time
(`setex key ttl v` at time `now` stores expiry `now + ttl`; Redis drops the
entry once `expiry ≤ now`).  Values are stored as `Json`: `json.dumps`
always produces a non-empty string, so the `if value:` truthiness test in
`CacheManager.get` on the serialised string is equivalent to the entry
being present, and `json.loads (json.dumps v) = v` on JSON values. -/

/-- The Redis store: newest entry for a key shadows older ones. -/
abbrev RedisStore := List (String × Json × Int)

/-- Look up the live entry for `key`. -/
def RedisStore.lookup (st : RedisStore) (key : String) : Option (Json × Int) :=
  match st with
  | [] => none
  | (k, v, e) :: rest => if k = key then some (v, e) else RedisStore.lookup rest key

/-- The `CacheManager` object: `enabled` is `settings.CACHE_ENABLED` (cleared
again when `connect` fails), `connected` records whether `redis_client` is
not `None`. -/
structure CacheManager where
  enabled : Bool
  connected : Bool

/-- `CacheManager.get` at time `now`.  `healthy = false` models the backing
store raising, which the `except` clause turns into a miss (`None`). -/
def CacheManager.get (cm : CacheManager) (st : RedisStore) (healthy : Bool)
    (now : Int) (key : String) : Option Json :=
  if ¬cm.enabled ∨ ¬cm.connected then none
  else if ¬healthy then none
  else match st.lookup key with
    | some (v, expiry) => if now < expiry then some v else none
    | none => none

/-- `CacheManager.set` at time `now` with an explicit `ttl` (the Python
`ttl or settings.CACHE_TTL` default resolution happens at the call site).
A disabled/disconnected manager or a raising backing store leaves the store
unchanged. -/
def CacheManager.set (cm : CacheManager) (st : RedisStore) (healthy : Bool)
    (now : Int) (key : String) (value : Json) (ttl : Int) : RedisStore :=
  if ¬cm.enabled ∨ ¬cm.connected then st
  else if ¬healthy then st
  else (key, value, now + ttl) :: st

/-! ## TMDB client (`services/tmdb_client.py`) -/

/-- How Python renders `Optional[str]` inside an f-string:
`f"...{region}"` prints `None` for `None` and the bare string otherwise. -/
def regionText : Option String → String
  | none => "None"
  | some s => s

/-- Cache key built by `TMDBClient.get_popular_movies`:
`f"popular:movies:page{page}:region{region}"` (`Nat.repr` is exactly the
decimal rendering `str(page)` used by the f-string). -/
def popularMoviesCacheKey (page : Nat) (region : Option String) : String :=
  "popular:movies:page" ++ Nat.repr page ++ ":region" ++ regionText region

/-- Cache key built by `TMDBClient.get_movie_details`:
`f"movie:{movie_id}:full"` — note that `append_to_response` does not occur
in it. -/
def movieDetailsCacheKey (movieId : Nat)
    (appendToResponse : Option (List String)) : String :=
  "movie:" ++ Nat.repr movieId ++ ":full"

/-- Cache key built by `TMDBClient.get_trending_movies`:
`f"trending:movies:{time_window}"`. -/
def trendingMoviesCacheKey (timeWindow : String) : String :=
  "trending:movies:" ++ timeWindow

/-- What `TMDBClient._make_request` hands back to its caller. -/
inductive RequestOutcome where
  | value (v : Json)
  | circuitOpen
  | httpError

/-- The observable effect of one `_make_request` call: the outcome, the
updated cache store, the updated breaker, whether the breaker was consulted
at all, and whether the network operation itself ran. -/
structure RequestEffect where
  outcome : RequestOutcome
  store : RedisStore
  breaker : CircuitBreaker
  breakerCalled : Bool
  networkCalled : Bool

/-- `TMDBClient._make_request`, with the network abstracted by the outcome
`netOk` (does `response.raise_for_status()` pass?) and the decoded body
`netVal`.  `cacheTtl` is `settings.CACHE_TTL` used by the `cache.set` call.
Returns `none` in the one situation where `CircuitBreaker.call` would crash
(OPEN breaker with no recorded failure time). -/
def makeRequest (cm : CacheManager) (st : RedisStore) (cb : CircuitBreaker)
    (breakerEnabled : Bool) (healthy : Bool) (now : Int)
    (method : String) (cacheKey : Option String)
    (netOk : Bool) (netVal : Json) (cacheTtl : Int) :
    Option RequestEffect :=
  -- `if method == "GET" and cache_key: ... if cached:`
  -- (`cache_key` is a string, so Python truthiness also rules out `""`)
  let hit : Option Json :=
    if method = "GET" then
      match cacheKey with
      | some k =>
        if k = "" then none
        else
          match cm.get st healthy now k with
          | some v => if v.truthy then some v else none
          | none => none
      | none => none
    else none
  match hit with
  | some v =>
    some { outcome := RequestOutcome.value v, store := st, breaker := cb
         , breakerCalled := false, networkCalled := false }
  | none =>
    match cb.call breakerEnabled now netOk with
    | none => none
    | some (CallOutcome.circuitOpen, cb') =>
      some { outcome := RequestOutcome.circuitOpen, store := st, breaker := cb'
           , breakerCalled := true, networkCalled := false }
    | some (CallOutcome.invoked false, cb') =>
      some { outcome := RequestOutcome.httpError, store := st, breaker := cb'
           , breakerCalled := true, networkCalled := true }
    | some (CallOutcome.invoked true, cb') =>
      let st' :=
        if method = "GET" then
          match cacheKey with
          | some k =>
            if k = "" then st else cm.set st healthy now k netVal cacheTtl
          | none => st
        else st
      some { outcome := RequestOutcome.value netVal, store := st', breaker := cb'
           , breakerCalled := true, networkCalled := true }

/-! ## Dashboard router (`routers/dashboard_router.py`)

Each endpoint gathers its dependency calls with
`asyncio.gather(..., return_exceptions=True)`, so every branch completes
and delivers either a value or an exception; we model each branch by an
`Except Unit _` input.  Movie dictionaries are reduced to the fields the
router reads. -/

/-- A raw TMDB movie dictionary; `movie.get("id")` may be absent. -/
structure Movie where
  movieId : Option Int
deriving DecidableEq, Repr

/-- An entry of the favorites mapping built by `_fetch_user_favorites`
(`movie_id -> fav`); the router reads `fav.get("rating")` and
`fav.get("added_date")`. -/
structure FavItem where
  rating : Option ℚ
  added_date : Option String
deriving DecidableEq, Repr

/-- An entry of the watchlist mapping built by `_fetch_user_watchlist`. -/
structure WlItem where
  added_date : Option String
deriving DecidableEq, Repr

/-- `movie_id -> fav` mapping, as an association list (the routers build a
Python dict; duplicate keys do not arise, and our lookup takes the first
binding). -/
abbrev FavMap := List (Int × FavItem)

/-- `movie_id -> watchlist item` mapping. -/
abbrev WlMap := List (Int × WlItem)

/-- `d.get(k)` on an `Int`-keyed mapping; a `None` movie id is never a
dict key. -/
def FavMap.find (m : FavMap) (k : Option Int) : Option FavItem :=
  match k with
  | none => none
  | some i =>
    match m with
    | [] => none
    | (j, v) :: rest => if j = i then some v else FavMap.find rest (some i)

/-- `d.get(k)` on the watchlist mapping. -/
def WlMap.find (m : WlMap) (k : Option Int) : Option WlItem :=
  match k with
  | none => none
  | some i =>
    match m with
    | [] => none
    | (j, v) :: rest => if j = i then some v else WlMap.find rest (some i)

/-- The `EnrichedMovie` model: the passed-through TMDB fields plus the three
user-context fields added by `_enrich_movie`. -/
structure EnrichedMovie where
  movie : Movie
  is_favorite : Bool
  is_in_watchlist : Bool
  user_rating : Option ℚ
deriving DecidableEq, Repr

/-- `_enrich_movie`: `is_favorite = movie_id in favorites`,
`is_in_watchlist = movie_id in watchlist`,
`user_rating = favorites.get(movie_id, {}).get("rating")`. -/
def enrichMovie (movie : Movie) (favorites : FavMap) (watchlist : WlMap) :
    EnrichedMovie :=
  { movie := movie
  , is_favorite := (favorites.find movie.movieId).isSome
  , is_in_watchlist := (watchlist.find movie.movieId).isSome
  , user_rating := (favorites.find movie.movieId).bind FavItem.rating }

/-- A TMDB list response: the fields the router reads from
`popular_response` / `trending_response` / `search_response`. -/
structure TMDBPage where
  results : List Movie
  total_pages : Nat
  total_results : Nat
deriving DecidableEq, Repr

/-- The `PersonalizedFeed` response model of `/api/dashboard/feed`. -/
structure PersonalizedFeed where
  movies : List EnrichedMovie
  total_pages : Nat
  current_page : Nat
  total_results : Nat
  favorites_count : Nat
  watchlist_count : Nat
deriving DecidableEq, Repr

/-- `get_personalized_feed`: the three gathered branch results come in as
`Except`s.  A failed popular-movies call raises HTTP 500
(`Except.error ()`); failed favorites/watchlist calls degrade to `{}`. -/
def getPersonalizedFeed (page : Nat) (popularE : Except Unit TMDBPage)
    (favoritesE : Except Unit FavMap) (watchlistE : Except Unit WlMap) :
    Except Unit PersonalizedFeed :=
  match popularE with
  | Except.error _ => Except.error ()
  | Except.ok popularResponse =>
    let favorites := match favoritesE with
      | Except.error _ => []
      | Except.ok f => f
    let watchlist := match watchlistE with
      | Except.error _ => []
      | Except.ok w => w
    Except.ok
      { movies := popularResponse.results.map
          (fun m => enrichMovie m favorites watchlist)
      , total_pages := popularResponse.total_pages
      , current_page := page
      , total_results := popularResponse.total_results
      , favorites_count := favorites.length
      , watchlist_count := watchlist.length }

/-- `avg_rating` computation in `get_complete_dashboard`: collect the
non-`None` `rating` fields of the favorites values, and average them unless
the list is empty. -/
def favRatingAvg (favorites : FavMap) : Option ℚ :=
  let favorite_ratings := favorites.filterMap (fun p => p.2.rating)
  if favorite_ratings = [] then none
  else some (favorite_ratings.sum / (favorite_ratings.length : ℚ))

/-- The `DashboardStats` model. -/
structure DashboardStats where
  total_favorites : Nat
  total_watchlist : Nat
  movies_watched : Nat
  avg_rating : Option ℚ
  favorite_genres : List String
deriving DecidableEq, Repr

/-- The `DashboardFeed` response model of `/api/dashboard/complete`. -/
structure DashboardFeed where
  popular_movies : List EnrichedMovie
  trending_movies : List EnrichedMovie
  recommended_for_you : List EnrichedMovie
  continue_watching : List EnrichedMovie
  stats : DashboardStats
  page : Nat
  total_pages : Nat
deriving DecidableEq, Repr

/-- `get_complete_dashboard`: failed popular/trending calls degrade to `[]`
(`if not isinstance(..., Exception)` fallbacks), failed favorites/watchlist
calls degrade to `{}`; the endpoint itself never hard-fails. -/
def getCompleteDashboard (popularE trendingE : Except Unit TMDBPage)
    (favoritesE : Except Unit FavMap) (watchlistE : Except Unit WlMap) :
    Except Unit DashboardFeed :=
  let popular_movies := match popularE with
    | Except.error _ => []
    | Except.ok p => p.results.take 12
  let trending_movies := match trendingE with
    | Except.error _ => []
    | Except.ok t => t.results.take 12
  let favorites := match favoritesE with
    | Except.error _ => []
    | Except.ok f => f
  let watchlist := match watchlistE with
    | Except.error _ => []
    | Except.ok w => w
  Except.ok
    { popular_movies := popular_movies.map
        (fun m => enrichMovie m favorites watchlist)
    , trending_movies := trending_movies.map
        (fun m => enrichMovie m favorites watchlist)
    , recommended_for_you := []
    , continue_watching := []
    , stats :=
      { total_favorites := favorites.length
      , total_watchlist := watchlist.length
      , movies_watched := favorites.length
      , avg_rating := favRatingAvg favorites
      , favorite_genres := [] }
    , page := 1
    , total_pages := 1 }

/-! ## Circuit breaker lemmas -/

theorem call_closed_success (cb : CircuitBreaker)
    (h : cb.state = CircuitState.CLOSED) (now : Int) :
    cb.call true now true = some (CallOutcome.invoked true, cb) := by
  simp [CircuitBreaker.call, h]

theorem call_closed_fail (cb : CircuitBreaker)
    (h : cb.state = CircuitState.CLOSED) (now : Int) :
    cb.call true now false = some (CallOutcome.invoked false,
      if cb.failure_threshold ≤ cb.failure_count + 1 then
        { cb with failure_count := cb.failure_count + 1
                , last_failure_time := some now
                , state := CircuitState.OPEN }
      else
        { cb with failure_count := cb.failure_count + 1
                , last_failure_time := some now }) := by
  simp only [CircuitBreaker.call, h]
  by_cases hth : cb.failure_threshold ≤ cb.failure_count + 1 <;>
    simp [hth, ge_iff_le, h]

theorem call_open_within (cb : CircuitBreaker) (t now : Int) (ok : Bool)
    (h : cb.state = CircuitState.OPEN)
    (ht : cb.last_failure_time = some t)
    (hlt : now - t < cb.timeout) :
    cb.call true now ok = some (CallOutcome.circuitOpen, cb) := by
  simp [CircuitBreaker.call, h, ht, not_le.mpr hlt]

theorem call_open_elapsed_success (cb : CircuitBreaker) (t now : Int)
    (h : cb.state = CircuitState.OPEN)
    (ht : cb.last_failure_time = some t)
    (hge : cb.timeout ≤ now - t) :
    cb.call true now true = some (CallOutcome.invoked true,
      { cb with state := CircuitState.CLOSED, failure_count := 0 }) := by
  simp [CircuitBreaker.call, h, ht, hge, ge_iff_le]

theorem call_open_elapsed_fail (cb : CircuitBreaker) (t now : Int)
    (h : cb.state = CircuitState.OPEN)
    (ht : cb.last_failure_time = some t)
    (hge : cb.timeout ≤ now - t)
    (hth : cb.failure_threshold ≤ cb.failure_count + 1) :
    cb.call true now false = some (CallOutcome.invoked false,
      { cb with state := CircuitState.OPEN
              , failure_count := cb.failure_count + 1
              , last_failure_time := some now }) := by
  simp [CircuitBreaker.call, h, ht, hge, hth, ge_iff_le]

theorem call_open_elapsed_fail_subthreshold (cb : CircuitBreaker)
    (t now : Int)
    (h : cb.state = CircuitState.OPEN)
    (ht : cb.last_failure_time = some t)
    (hge : cb.timeout ≤ now - t)
    (hth : ¬cb.failure_threshold ≤ cb.failure_count + 1) :
    cb.call true now false = some (CallOutcome.invoked false,
      { cb with state := CircuitState.HALF_OPEN
              , failure_count := cb.failure_count + 1
              , last_failure_time := some now }) := by
  simp [CircuitBreaker.call, h, ht, hge, hth, ge_iff_le]

theorem call_half_open_success (cb : CircuitBreaker) (now : Int)
    (h : cb.state = CircuitState.HALF_OPEN) :
    cb.call true now true = some (CallOutcome.invoked true,
      { cb with state := CircuitState.CLOSED, failure_count := 0 }) := by
  simp [CircuitBreaker.call, h]

theorem call_half_open_fail (cb : CircuitBreaker) (now : Int)
    (h : cb.state = CircuitState.HALF_OPEN) :
    cb.call true now false = some (CallOutcome.invoked false,
      if cb.failure_threshold ≤ cb.failure_count + 1 then
        { cb with failure_count := cb.failure_count + 1
                , last_failure_time := some now
                , state := CircuitState.OPEN }
      else
        { cb with failure_count := cb.failure_count + 1
                , last_failure_time := some now }) := by
  simp only [CircuitBreaker.call, h]
  by_cases hth : cb.failure_threshold ≤ cb.failure_count + 1 <;>
    simp [hth, ge_iff_le, h]

/-- The invariant maintained by `call` from the initial state: a breaker at
rest is never `HALF_OPEN` (the state is transient inside `call`), and an
`OPEN` breaker has already counted at least `failure_threshold` failures and
recorded a failure time. -/
def BreakerInv (cb : CircuitBreaker) : Prop :=
  (cb.state = CircuitState.OPEN →
    cb.failure_threshold ≤ cb.failure_count ∧ cb.last_failure_time.isSome)
  ∧ cb.state ≠ CircuitState.HALF_OPEN

theorem breakerInv_mk (threshold : Nat) (timeout : Int) :
    BreakerInv (mkCircuitBreaker threshold timeout) := by
  constructor <;> simp [mkCircuitBreaker]

theorem breakerInv_call (cb : CircuitBreaker) (now : Int) (ok : Bool)
    (r : CallOutcome) (cb' : CircuitBreaker) (h : BreakerInv cb)
    (hc : cb.call true now ok = some (r, cb')) : BreakerInv cb' := by
  cases hstate : cb.state with
  | CLOSED =>
    cases ok with
    | true =>
      rw [call_closed_success cb hstate now] at hc
      injection hc with hc'
      injection hc' with h1 h2
      subst h2
      exact h
    | false =>
      rw [call_closed_fail cb hstate now] at hc
      injection hc with hc'
      injection hc' with h1 h2
      subst h2
      by_cases hth : cb.failure_threshold ≤ cb.failure_count + 1 <;>
        simp [BreakerInv, hth, hstate]
  | OPEN =>
    obtain ⟨hth, hsome⟩ := h.1 hstate
    obtain ⟨t, ht⟩ := Option.isSome_iff_exists.mp hsome
    by_cases helap : cb.timeout ≤ now - t
    · cases ok with
      | true =>
        rw [call_open_elapsed_success cb t now hstate ht helap] at hc
        injection hc with hc'
        injection hc' with h1 h2
        subst h2
        simp [BreakerInv]
      | false =>
        rw [call_open_elapsed_fail cb t now hstate ht helap
          (le_trans hth (Nat.le_succ _))] at hc
        injection hc with hc'
        injection hc' with h1 h2
        subst h2
        simpa [BreakerInv] using le_trans hth (Nat.le_succ _)
    · rw [call_open_within cb t now ok hstate ht (not_le.mp helap)] at hc
      injection hc with hc'
      injection hc' with h1 h2
      subst h2
      exact h
  | HALF_OPEN => exact absurd hstate h.2

theorem breakerInv_applyTrace :
    ∀ (tr : List (Int × Bool)) (cb cb' : CircuitBreaker), BreakerInv cb →
      CircuitBreaker.applyTrace cb tr = some cb' → BreakerInv cb'
  | [], cb, cb', h, hc => by
    simp [CircuitBreaker.applyTrace] at hc
    exact hc ▸ h
  | e :: es, cb, cb', h, hc => by
    simp only [CircuitBreaker.applyTrace] at hc
    cases hstep : cb.stepTrace e.1 e.2 with
    | none => rw [hstep] at hc; cases hc
    | some cb₁ =>
      rw [hstep] at hc
      obtain ⟨⟨r, cb₂⟩, hcall, hsnd⟩ :=
        Option.map_eq_some'.mp hstep
      cases hsnd
      exact breakerInv_applyTrace es cb₂ cb'
        (breakerInv_call cb e.1 e.2 r cb₂ h hcall) hc

theorem reachable_breakerInv (cb : CircuitBreaker)
    (h : ReachableBreaker cb) : BreakerInv cb := by
  obtain ⟨threshold, timeout, tr, htr⟩ := h
  exact breakerInv_applyTrace tr _ cb (breakerInv_mk threshold timeout) htr

theorem call_open_no_time (cb : CircuitBreaker) (now : Int) (ok : Bool)
    (h : cb.state = CircuitState.OPEN)
    (ht : cb.last_failure_time = none) :
    cb.call true now ok = none := by
  simp [CircuitBreaker.call, h, ht]

/-- Folding a run of failing calls through a breaker that is either still
counting (CLOSED) or already tripped (OPEN with the invariant) always ends
in the OPEN state. -/
theorem applyTrace_fail_opens :
    ∀ (ts : List Int) (cb : CircuitBreaker),
      ((cb.state = CircuitState.CLOSED ∧ 1 ≤ ts.length ∧
          cb.failure_threshold ≤ cb.failure_count + ts.length) ∨
        (cb.state = CircuitState.OPEN ∧
          cb.failure_threshold ≤ cb.failure_count ∧
          cb.last_failure_time.isSome)) →
      ∃ cb', CircuitBreaker.applyTrace cb (ts.map (fun t => (t, false))) = some cb' ∧
        cb'.state = CircuitState.OPEN ∧
        cb'.failure_threshold ≤ cb'.failure_count ∧
        cb'.last_failure_time.isSome
  | [], cb, h => by
    rcases h with ⟨_, h1, _⟩ | ⟨hO, hth, hsome⟩
    · simp at h1
    · exact ⟨cb, rfl, hO, hth, hsome⟩
  | t :: ts, cb, h => by
    rcases h with ⟨hC, _, hsum⟩ | ⟨hO, hth, hsome⟩
    · simp only [List.length_cons] at hsum
      by_cases hth1 : cb.failure_threshold ≤ cb.failure_count + 1
      · obtain ⟨cb', h1, h2⟩ := applyTrace_fail_opens ts
          { cb with failure_count := cb.failure_count + 1
                  , last_failure_time := some t
                  , state := CircuitState.OPEN }
          (Or.inr ⟨rfl, hth1, rfl⟩)
        refine ⟨cb', ?_, h2⟩
        simp only [List.map_cons, CircuitBreaker.applyTrace,
          CircuitBreaker.stepTrace, call_closed_fail cb hC t, if_pos hth1,
          Option.map_some']
        exact h1
      · obtain ⟨cb', h1, h2⟩ := applyTrace_fail_opens ts
          { cb with failure_count := cb.failure_count + 1
                  , last_failure_time := some t }
          (Or.inl ⟨hC, by omega, by simpa using by omega⟩)
        refine ⟨cb', ?_, h2⟩
        simp only [List.map_cons, CircuitBreaker.applyTrace,
          CircuitBreaker.stepTrace, call_closed_fail cb hC t, if_neg hth1,
          Option.map_some']
        exact h1
    · obtain ⟨t', ht'⟩ := Option.isSome_iff_exists.mp hsome
      by_cases helap : cb.timeout ≤ t - t'
      · obtain ⟨cb', h1, h2⟩ := applyTrace_fail_opens ts
          { cb with state := CircuitState.OPEN
                  , failure_count := cb.failure_count + 1
                  , last_failure_time := some t }
          (Or.inr ⟨rfl, le_trans hth (Nat.le_succ _), rfl⟩)
        refine ⟨cb', ?_, h2⟩
        simp only [List.map_cons, CircuitBreaker.applyTrace,
          CircuitBreaker.stepTrace,
          call_open_elapsed_fail cb t' t hO ht' helap
            (le_trans hth (Nat.le_succ _)),
          Option.map_some']
        exact h1
      · obtain ⟨cb', h1, h2⟩ := applyTrace_fail_opens ts cb
          (Or.inr ⟨hO, hth, hsome⟩)
        refine ⟨cb', ?_, h2⟩
        simp only [List.map_cons, CircuitBreaker.applyTrace,
          CircuitBreaker.stepTrace,
          call_open_within cb t' t false hO ht' (not_le.mp helap),
          Option.map_some']
        exact h1

/-! ## Claim theorems: circuit breaker -/

/-- C1: starting from a CLOSED breaker, any run of `N ≥ failure_threshold`
consecutive failing calls drives the state to OPEN, and every call on an
OPEN breaker made while `now - last_failure_time < open_timeout` raises
`CircuitOpen` without invoking the operation and without changing the
breaker. -/
theorem consecutive_failures_open_circuit (cb : CircuitBreaker)
    (ts : List Int) (hclosed : cb.state = CircuitState.CLOSED)
    (hthr : 1 ≤ cb.failure_threshold)
    (hN : cb.failure_threshold ≤ ts.length) :
    (∃ cb', CircuitBreaker.applyTrace cb (ts.map (fun t => (t, false))) = some cb' ∧
      cb'.state = CircuitState.OPEN) ∧
    ∀ (cb₂ : CircuitBreaker) (t now : Int) (ok : Bool),
      cb₂.state = CircuitState.OPEN →
      cb₂.last_failure_time = some t →
      now - t < cb₂.timeout →
      cb₂.call true now ok = some (CallOutcome.circuitOpen, cb₂) := by
  constructor
  · obtain ⟨cb', h1, h2, _⟩ := applyTrace_fail_opens ts cb
      (Or.inl ⟨hclosed, le_trans hthr hN, by omega⟩)
    exact ⟨cb', h1, h2⟩
  · intro cb₂ t now ok hO ht hlt
    exact call_open_within cb₂ t now ok hO ht hlt

theorem consecutive_failures_open_circuit_witness :
    ∃ cb', CircuitBreaker.applyTrace (mkCircuitBreaker 1 10)
        ([(0 : Int)].map (fun t => (t, false))) = some cb' ∧
      cb'.state = CircuitState.OPEN :=
  (consecutive_failures_open_circuit (mkCircuitBreaker 1 10) [0] rfl
    (by decide) (by decide)).1

/-- A breaker that has tripped once with `failure_threshold = 1`,
`open_timeout = 10`, last failure at time 0. -/
def openBreakerEx : CircuitBreaker :=
  { failure_threshold := 1, timeout := 10, failure_count := 1
  , last_failure_time := some 0, state := CircuitState.OPEN }

theorem openBreakerEx_reachable : ReachableBreaker openBreakerEx :=
  ⟨1, 10, [(0, false)], by decide⟩

/-- C2: once `open_timeout` has elapsed since the last failure, the next
call on a (reachable) OPEN breaker invokes the operation; on success the
breaker closes and `failure_count` resets to 0, on failure it re-opens with
`last_failure_time` moved to the new failure time. -/
theorem open_timeout_probe (cb : CircuitBreaker) (t now : Int)
    (hreach : ReachableBreaker cb)
    (hopen : cb.state = CircuitState.OPEN)
    (ht : cb.last_failure_time = some t)
    (helap : cb.timeout ≤ now - t) :
    cb.call true now true = some (CallOutcome.invoked true,
      { cb with state := CircuitState.CLOSED, failure_count := 0 }) ∧
    cb.call true now false = some (CallOutcome.invoked false,
      { cb with state := CircuitState.OPEN
              , failure_count := cb.failure_count + 1
              , last_failure_time := some now }) := by
  have hth := ((reachable_breakerInv cb hreach).1 hopen).1
  exact ⟨call_open_elapsed_success cb t now hopen ht helap,
    call_open_elapsed_fail cb t now hopen ht helap
      (le_trans hth (Nat.le_succ _))⟩

theorem open_timeout_probe_witness :
    openBreakerEx.call true 10 true = some (CallOutcome.invoked true,
      { openBreakerEx with state := CircuitState.CLOSED, failure_count := 0 }) ∧
    openBreakerEx.call true 10 false = some (CallOutcome.invoked false,
      { openBreakerEx with
          state := CircuitState.OPEN,
          failure_count := openBreakerEx.failure_count + 1,
          last_failure_time := some 10 }) :=
  open_timeout_probe openBreakerEx 0 10 openBreakerEx_reachable rfl rfl
    (by decide)

/-- C8: a successful call on a CLOSED breaker leaves the breaker entirely
unchanged (partial `failure_count` and `last_failure_time` included); a call
can drop a non-zero `failure_count` to 0 only by succeeding on the
HALF_OPEN → CLOSED edge (entered from OPEN after the timeout, or from
HALF_OPEN itself); and `reset()` clears count, state and failure time. -/
theorem closed_success_is_noop (cb : CircuitBreaker) (now : Int) (ok : Bool)
    (r : CallOutcome) (cb' : CircuitBreaker) :
    (cb.state = CircuitState.CLOSED →
      cb.call true now true = some (CallOutcome.invoked true, cb)) ∧
    (cb.call true now ok = some (r, cb') →
      cb'.failure_count = 0 → cb.failure_count ≠ 0 →
      ok = true ∧ cb'.state = CircuitState.CLOSED ∧
        (cb.state = CircuitState.OPEN ∨ cb.state = CircuitState.HALF_OPEN)) ∧
    (cb.reset.failure_count = 0 ∧ cb.reset.state = CircuitState.CLOSED ∧
      cb.reset.last_failure_time = none) := by
  refine ⟨fun h => call_closed_success cb h now, ?_, rfl, rfl, rfl⟩
  intro hc h0 hne
  cases hstate : cb.state with
  | CLOSED =>
    cases ok with
    | true =>
      rw [call_closed_success cb hstate now] at hc
      injection hc with hc'
      injection hc' with h1 h2
      subst h2
      exact absurd h0 hne
    | false =>
      rw [call_closed_fail cb hstate now] at hc
      injection hc with hc'
      injection hc' with h1 h2
      subst h2
      by_cases hth : cb.failure_threshold ≤ cb.failure_count + 1 <;>
        simp [hth] at h0
  | OPEN =>
    cases hlast : cb.last_failure_time with
    | none => rw [call_open_no_time cb now ok hstate hlast] at hc; cases hc
    | some t =>
      by_cases helap : cb.timeout ≤ now - t
      · cases ok with
        | true =>
          rw [call_open_elapsed_success cb t now hstate hlast helap] at hc
          injection hc with hc'
          injection hc' with h1 h2
          subst h2
          exact ⟨rfl, rfl, Or.inl rfl⟩
        | false =>
          by_cases hth : cb.failure_threshold ≤ cb.failure_count + 1
          · rw [call_open_elapsed_fail cb t now hstate hlast helap hth] at hc
            injection hc with hc'
            injection hc' with h1 h2
            subst h2
            simp at h0
          · rw [call_open_elapsed_fail_subthreshold cb t now hstate hlast
                helap hth] at hc
            injection hc with hc'
            injection hc' with h1 h2
            subst h2
            simp at h0
      · rw [call_open_within cb t now ok hstate hlast (not_le.mp helap)] at hc
        injection hc with hc'
        injection hc' with h1 h2
        subst h2
        exact absurd h0 hne
  | HALF_OPEN =>
    cases ok with
    | true =>
      rw [call_half_open_success cb now hstate] at hc
      injection hc with hc'
      injection hc' with h1 h2
      subst h2
      exact ⟨rfl, rfl, Or.inr rfl⟩
    | false =>
      rw [call_half_open_fail cb now hstate] at hc
      injection hc with hc'
      injection hc' with h1 h2
      subst h2
      by_cases hth : cb.failure_threshold ≤ cb.failure_count + 1 <;>
        simp [hth] at h0

/-- A CLOSED breaker carrying a partial failure count. -/
def closedBreakerEx : CircuitBreaker :=
  { failure_threshold := 3, timeout := 10, failure_count := 2
  , last_failure_time := some 1, state := CircuitState.CLOSED }

theorem closed_success_is_noop_witness :
    closedBreakerEx.call true 5 true =
      some (CallOutcome.invoked true, closedBreakerEx) :=
  (closed_success_is_noop closedBreakerEx 5 true CallOutcome.circuitOpen
    closedBreakerEx).1 rfl

/-- C10: along any reset-free trace from the initial state, a breaker whose
state is OPEN or HALF_OPEN has `failure_count ≥ failure_threshold`. -/
theorem tripped_state_count_ge_threshold (cb : CircuitBreaker)
    (hreach : ReachableBreaker cb)
    (hthr : 1 ≤ cb.failure_threshold)
    (hs : cb.state = CircuitState.OPEN ∨ cb.state = CircuitState.HALF_OPEN) :
    cb.failure_threshold ≤ cb.failure_count := by
  have hinv := reachable_breakerInv cb hreach
  rcases hs with h | h
  · exact (hinv.1 h).1
  · exact absurd h hinv.2

theorem tripped_state_count_ge_threshold_witness :
    openBreakerEx.failure_threshold ≤ openBreakerEx.failure_count :=
  tripped_state_count_ge_threshold openBreakerEx openBreakerEx_reachable
    (by decide) (Or.inl rfl)

/-! ## Decimal rendering of naturals

`str(page)` in the Python f-strings is the decimal rendering of the
integer, i.e. `Nat.repr`; the cache-key claims need its injectivity. -/

theorem toDigitsCore_eq_digits (fuel : Nat) :
    ∀ (n : Nat) (ds : List Char), 0 < n → n < fuel →
      Nat.toDigitsCore 10 fuel n ds =
        ((Nat.digits 10 n).map Nat.digitChar).reverse ++ ds := by
  induction fuel with
  | zero => intro n ds hn hfuel; omega
  | succ f ih =>
    intro n ds hn hfuel
    have hdig : Nat.digits 10 n = n % 10 :: Nat.digits 10 (n / 10) :=
      Nat.digits_def' (by norm_num) hn
    by_cases h0 : n / 10 = 0
    · simp only [Nat.toDigitsCore, h0, if_pos]
      rw [hdig, h0]
      simp
    · have hdiv : n / 10 < n := Nat.div_lt_self hn (by norm_num)
      simp only [Nat.toDigitsCore, if_neg h0]
      rw [ih (n / 10) _ (Nat.pos_of_ne_zero h0) (by omega)]
      rw [hdig]
      simp

theorem repr_pos_eq_digits (n : Nat) (hn : 0 < n) :
    Nat.repr n = (((Nat.digits 10 n).map Nat.digitChar).reverse).asString := by
  unfold Nat.repr Nat.toDigits
  rw [toDigitsCore_eq_digits (n + 1) n [] hn (Nat.lt_succ_self n)]
  rw [List.append_nil]

theorem digitChar_fin_inj : ∀ a b : Fin 10,
    Nat.digitChar a.val = Nat.digitChar b.val → a = b := by decide

theorem map_digitChar_inj :
    ∀ (l₁ l₂ : List Nat), (∀ x ∈ l₁, x < 10) → (∀ x ∈ l₂, x < 10) →
      l₁.map Nat.digitChar = l₂.map Nat.digitChar → l₁ = l₂
  | [], [], _, _, _ => rfl
  | [], _ :: _, _, _, h => by simp at h
  | _ :: _, [], _, _, h => by simp at h
  | a :: l₁, b :: l₂, h₁, h₂, h => by
    simp only [List.map_cons, List.cons.injEq] at h
    have ha : a < 10 := h₁ a (List.mem_cons_self a l₁)
    have hb : b < 10 := h₂ b (List.mem_cons_self b l₂)
    have hfin : (⟨a, ha⟩ : Fin 10) = ⟨b, hb⟩ := digitChar_fin_inj _ _ h.1
    have hab : a = b := congrArg Fin.val hfin
    have htail := map_digitChar_inj l₁ l₂
      (fun x hx => h₁ x (List.mem_cons_of_mem a hx))
      (fun x hx => h₂ x (List.mem_cons_of_mem b hx)) h.2
    rw [hab, htail]

theorem repr_pos_ne_repr_zero (n : Nat) (hn : 0 < n) :
    Nat.repr n ≠ Nat.repr 0 := by
  intro h
  rw [repr_pos_eq_digits n hn] at h
  have hdata : ((Nat.digits 10 n).map Nat.digitChar).reverse = ['0'] :=
    congrArg String.data h
  have hmap : (Nat.digits 10 n).map Nat.digitChar = ['0'] := by
    have := congrArg List.reverse hdata
    simpa using this
  cases hd : Nat.digits 10 n with
  | nil => rw [hd] at hmap; simp at hmap
  | cons d rest =>
    rw [hd] at hmap
    cases rest with
    | cons d' rest' => simp at hmap
    | nil =>
      simp only [List.map_cons, List.map_nil, List.cons.injEq, and_true] at hmap
      have hdlt : d < 10 :=
        Nat.digits_lt_base (by norm_num) (hd ▸ List.mem_cons_self d [])
      have hfin : (⟨d, hdlt⟩ : Fin 10) = ⟨0, by norm_num⟩ :=
        digitChar_fin_inj _ _ (by simpa using hmap)
      have hd0 : d = 0 := congrArg Fin.val hfin
      have hofd := Nat.ofDigits_digits 10 n
      rw [hd, hd0] at hofd
      simp [Nat.ofDigits] at hofd
      omega

theorem natReprInj (m n : Nat) (h : Nat.repr m = Nat.repr n) : m = n := by
  rcases Nat.eq_zero_or_pos m with hm | hm
  · rcases Nat.eq_zero_or_pos n with hn | hn
    · omega
    · exact absurd (hm ▸ h.symm) (repr_pos_ne_repr_zero n hn)
  · rcases Nat.eq_zero_or_pos n with hn | hn
    · exact absurd (hn ▸ h) (repr_pos_ne_repr_zero m hm)
    · rw [repr_pos_eq_digits m hm, repr_pos_eq_digits n hn] at h
      have hdata : ((Nat.digits 10 m).map Nat.digitChar).reverse =
          ((Nat.digits 10 n).map Nat.digitChar).reverse :=
        congrArg String.data h
      have hmap := List.reverse_injective hdata
      have hdig := map_digitChar_inj _ _
        (fun x hx => Nat.digits_lt_base (by norm_num) hx)
        (fun x hx => Nat.digits_lt_base (by norm_num) hx) hmap
      calc m = Nat.ofDigits 10 (Nat.digits 10 m) :=
            (Nat.ofDigits_digits 10 m).symm
        _ = Nat.ofDigits 10 (Nat.digits 10 n) := by rw [hdig]
        _ = n := Nat.ofDigits_digits 10 n

theorem digitChar_isDigit : ∀ d : Fin 10,
    (Nat.digitChar d.val).isDigit = true := by decide

theorem repr_chars_digit (n : Nat) :
    ∀ c ∈ (Nat.repr n).data, c.isDigit = true := by
  rcases Nat.eq_zero_or_pos n with hn | hn
  · subst hn
    intro c hc
    rw [show (Nat.repr 0).data = ['0'] from rfl] at hc
    simp at hc
    subst hc
    decide
  · rw [repr_pos_eq_digits n hn]
    intro c hc
    have hc' : c ∈ ((Nat.digits 10 n).map Nat.digitChar).reverse := hc
    rw [List.mem_reverse] at hc'
    obtain ⟨d, hd, rfl⟩ := List.mem_map.mp hc'
    have hdlt : d < 10 := Nat.digits_lt_base (by norm_num) hd
    exact digitChar_isDigit ⟨d, hdlt⟩

/-- Splitting a concatenation of an all-digit block and a block led by a
non-digit character is unambiguous: this is what makes the decimal page or
movie id followed by a `:`-led literal recoverable from a cache key. -/
theorem append_digit_sep (l₁ : List Char) :
    ∀ (l₂ s₁ s₂ : List Char) (c₁ c₂ : Char) (u₁ u₂ : List Char),
      s₁ = c₁ :: u₁ → s₂ = c₂ :: u₂ →
      c₁.isDigit = false → c₂.isDigit = false →
      (∀ c ∈ l₁, c.isDigit = true) → (∀ c ∈ l₂, c.isDigit = true) →
      l₁ ++ s₁ = l₂ ++ s₂ → l₁ = l₂ ∧ s₁ = s₂ := by
  induction l₁ with
  | nil =>
    intro l₂ s₁ s₂ c₁ c₂ u₁ u₂ hs₁ hs₂ hc₁ hc₂ h₁ h₂ h
    cases l₂ with
    | nil => exact ⟨rfl, h⟩
    | cons b l₂' =>
      exfalso
      rw [List.nil_append, hs₁, List.cons_append] at h
      injection h with hb _
      have hmem := h₂ b (List.mem_cons_self b l₂')
      rw [← hb, hc₁] at hmem
      exact Bool.noConfusion hmem
  | cons a l₁' ih =>
    intro l₂ s₁ s₂ c₁ c₂ u₁ u₂ hs₁ hs₂ hc₁ hc₂ h₁ h₂ h
    cases l₂ with
    | nil =>
      exfalso
      rw [List.nil_append, hs₂, List.cons_append] at h
      injection h with hb _
      have hmem := h₁ a (List.mem_cons_self a l₁')
      rw [hb, hc₂] at hmem
      exact Bool.noConfusion hmem
    | cons b l₂' =>
      rw [List.cons_append, List.cons_append] at h
      injection h with hab h'
      obtain ⟨hl, hs⟩ := ih l₂' s₁ s₂ c₁ c₂ u₁ u₂ hs₁ hs₂ hc₁ hc₂
        (fun c hc => h₁ c (List.mem_cons_of_mem a hc))
        (fun c hc => h₂ c (List.mem_cons_of_mem b hc)) h'
      exact ⟨by rw [hab, hl], hs⟩

/-! ## Claim theorems: cache keys -/

/-- C7 counterexamples: (a) the two `get_movie_details` requests for movie
550 with include sets `["credits"]` and `["reviews"]` are logically
different (they fetch different sub-resources) yet derive the same cache
key; (b) the f-string renders an absent region as the string `None`, so a
popular-movies request with no region and one with the literal region
string `"None"` — different filter parameters — also derive the same key. -/
theorem details_include_set_key_collision :
    ((some ["credits"] : Option (List String)) ≠ some ["reviews"] ∧
      movieDetailsCacheKey 550 (some ["credits"]) =
        movieDetailsCacheKey 550 (some ["reviews"])) ∧
    ((none : Option String) ≠ some "None" ∧
      popularMoviesCacheKey 1 none = popularMoviesCacheKey 1 (some "None")) :=
  ⟨⟨by decide, rfl⟩, ⟨by decide, rfl⟩⟩

/-- C7 (amended): cache keys are deterministic in the request parameters
and keys of the two cited operations never collide with each other.
Two `get_popular_movies` keys are equal exactly when the pages are equal
and the regions render to the same string — so requests differing in page
or in (rendered) region never collide, the only region conflation being
the f-string artifact `region=None` vs the literal region string `"None"`.
`get_movie_details` keys are equal exactly when the movie ids are equal:
the key omits `append_to_response`, so detail requests differing only in
the include set always share a key. -/
theorem cache_key_distinctness (p₁ p₂ : Nat) (r₁ r₂ : Option String)
    (id₁ id₂ : Nat) (s₁ s₂ : Option (List String)) :
    (popularMoviesCacheKey p₁ r₁ = popularMoviesCacheKey p₂ r₂ ↔
      p₁ = p₂ ∧ regionText r₁ = regionText r₂) ∧
    (movieDetailsCacheKey id₁ s₁ = movieDetailsCacheKey id₂ s₂ ↔ id₁ = id₂) ∧
    (popularMoviesCacheKey p₁ r₁ ≠ movieDetailsCacheKey id₁ s₁) ∧
    (regionText r₁ = regionText r₂ →
      r₁ = r₂ ∨ (r₁ = none ∧ r₂ = some "None") ∨
        (r₁ = some "None" ∧ r₂ = none)) := by
  refine ⟨⟨?_, ?_⟩, ⟨?_, fun h => by subst h; rfl⟩, ?_, ?_⟩
  · intro h
    unfold popularMoviesCacheKey at h
    have hdata := congrArg String.data h
    simp only [String.data_append, List.append_assoc] at hdata
    have h1 := List.append_cancel_left hdata
    obtain ⟨hp, hs⟩ := append_digit_sep (Nat.repr p₁).data (Nat.repr p₂).data
      (":region".data ++ (regionText r₁).data)
      (":region".data ++ (regionText r₂).data)
      ':' ':' ("region".data ++ (regionText r₁).data)
      ("region".data ++ (regionText r₂).data) rfl rfl (by decide) (by decide)
      (repr_chars_digit p₁) (repr_chars_digit p₂) h1
    refine ⟨natReprInj p₁ p₂ (String.ext hp), ?_⟩
    exact String.ext (List.append_cancel_left hs)
  · rintro ⟨hp, hr⟩
    unfold popularMoviesCacheKey
    rw [hp, hr]
  · intro h
    unfold movieDetailsCacheKey at h
    have hdata := congrArg String.data h
    simp only [String.data_append, List.append_assoc] at hdata
    have h1 := List.append_cancel_left hdata
    have h2 := List.append_cancel_right
      (h1 : (Nat.repr id₁).data ++ _ = (Nat.repr id₂).data ++ _)
    exact natReprInj id₁ id₂ (String.ext h2)
  · intro h
    exact absurd
      (congrArg (fun s => s.data.head?) h : some 'p' = some 'm') (by decide)
  · intro h
    cases r₁ with
    | none =>
      cases r₂ with
      | none => exact Or.inl rfl
      | some t =>
        simp only [regionText] at h
        exact Or.inr (Or.inl ⟨rfl, by rw [← h]⟩)
    | some s =>
      cases r₂ with
      | none =>
        simp only [regionText] at h
        exact Or.inr (Or.inr ⟨by rw [h], rfl⟩)
      | some t =>
        simp only [regionText] at h
        exact Or.inl (by rw [h])

theorem cache_key_distinctness_witness :
    popularMoviesCacheKey 2 (some "US") ≠ popularMoviesCacheKey 2 (some "FR") :=
  fun h => absurd
    ((cache_key_distinctness 2 2 (some "US") (some "FR") 550 550 none
      none).1.mp h).2 (by decide)

/-! ## Claim theorems: cache manager and dependency client -/

/-- C5: `get` misses on a never-set key and on an expired entry, and a
`set` followed by a `get` within the TTL window (cache enabled, store
healthy) returns the stored value unchanged. -/
theorem cache_get_set_roundtrip (cm : CacheManager) (st : RedisStore)
    (healthy : Bool) (now nowR ttl : Int) (key : String) (value : Json) :
    (st.lookup key = none → cm.get st healthy now key = none) ∧
    (∀ v e, st.lookup key = some (v, e) → e ≤ now →
      cm.get st healthy now key = none) ∧
    (cm.enabled = true → cm.connected = true → nowR < now + ttl →
      CacheManager.get cm (CacheManager.set cm st true now key value ttl)
        true nowR key = some value) := by
  refine ⟨?_, ?_, ?_⟩
  · intro hl
    simp [CacheManager.get, hl]
  · intro v e hl he
    simp [CacheManager.get, hl, not_lt.mpr he]
  · intro he hc hR
    simp [CacheManager.get, CacheManager.set, RedisStore.lookup, he, hc, hR]

theorem cache_get_set_roundtrip_witness :
    CacheManager.get ⟨true, true⟩
      (CacheManager.set ⟨true, true⟩ [] true 0 "movie:550:full" (Json.num 1) 60)
      true 30 "movie:550:full" = some (Json.num 1) :=
  (cache_get_set_roundtrip ⟨true, true⟩ [] true 0 30 60 "movie:550:full"
    (Json.num 1)).2.2 rfl rfl (by decide)

/-- C6 counterexample: the response cache holds an unexpired entry for the
requested key (the empty JSON object `{}` with expiry 100, read at time 0),
yet `_make_request` skips it (Python truthiness of `if cached:`), invokes
the breaker and the network, and the failing operation trips the breaker
from CLOSED to OPEN — so the breaker state is *not* unchanged. -/
theorem cached_falsy_value_not_served :
    CacheManager.get ⟨true, true⟩ [("k", Json.obj [], 100)] true 0 "k" =
      some (Json.obj []) ∧
    makeRequest ⟨true, true⟩ [("k", Json.obj [], 100)] (mkCircuitBreaker 1 10)
        true true 0 "GET" (some "k") false Json.null 60 =
      some { outcome := RequestOutcome.httpError
           , store := [("k", Json.obj [], 100)]
           , breaker := { failure_threshold := 1, timeout := 10
                        , failure_count := 1, last_failure_time := some 0
                        , state := CircuitState.OPEN }
           , breakerCalled := true, networkCalled := true } :=
  ⟨rfl, rfl⟩

/-- C6 (amended): if the cache holds an unexpired entry for the key whose
value is *truthy*, a GET with that cache key returns the cached value
without the network call and without consulting the breaker, leaving the
store and every breaker field unchanged. -/
theorem cache_hit_skips_network_and_breaker (cm : CacheManager)
    (st : RedisStore) (cb : CircuitBreaker) (breakerEnabled healthy : Bool)
    (now : Int) (k : String) (netOk : Bool) (netVal : Json) (ttl : Int)
    (v : Json) (hk : k ≠ "")
    (hget : cm.get st healthy now k = some v)
    (htruthy : v.truthy = true) :
    makeRequest cm st cb breakerEnabled healthy now "GET" (some k)
        netOk netVal ttl =
      some { outcome := RequestOutcome.value v, store := st, breaker := cb
           , breakerCalled := false, networkCalled := false } := by
  simp [makeRequest, hk, hget, htruthy]

theorem cache_hit_skips_network_and_breaker_witness :
    makeRequest ⟨true, true⟩ [("k", Json.num 7, 100)] closedBreakerEx true true
        0 "GET" (some "k") false Json.null 60 =
      some { outcome := RequestOutcome.value (Json.num 7)
           , store := [("k", Json.num 7, 100)], breaker := closedBreakerEx
           , breakerCalled := false, networkCalled := false } :=
  cache_hit_skips_network_and_breaker ⟨true, true⟩ [("k", Json.num 7, 100)]
    closedBreakerEx true true 0 "k" false Json.null 60 (Json.num 7)
    (by decide) rfl rfl

/-! ## Claim theorems: aggregation and enrichment -/

/-- C4: enrichment annotates each primary item by looking up its id in the
favorites and watchlist mappings, with absent lookups yielding the default
annotation values; on the concrete spec example it produces exactly the
documented annotations. -/
theorem enrichment_annotations (movie : Movie) (favorites : FavMap)
    (watchlist : WlMap) :
    (enrichMovie ⟨some 550⟩ [(550, ⟨some 5, none⟩)] [(155, ⟨none⟩)] =
        ⟨⟨some 550⟩, true, false, some 5⟩ ∧
      enrichMovie ⟨some 155⟩ [(550, ⟨some 5, none⟩)] [(155, ⟨none⟩)] =
        ⟨⟨some 155⟩, false, true, none⟩) ∧
    ((enrichMovie movie favorites watchlist).is_favorite =
        (favorites.find movie.movieId).isSome ∧
      (enrichMovie movie favorites watchlist).is_in_watchlist =
        (watchlist.find movie.movieId).isSome ∧
      (enrichMovie movie favorites watchlist).user_rating =
        (favorites.find movie.movieId).bind FavItem.rating) ∧
    (favorites.find movie.movieId = none →
      (enrichMovie movie favorites watchlist).is_favorite = false ∧
      (enrichMovie movie favorites watchlist).user_rating = none) ∧
    (watchlist.find movie.movieId = none →
      (enrichMovie movie favorites watchlist).is_in_watchlist = false) := by
  refine ⟨⟨by decide, by decide⟩, ⟨rfl, rfl, rfl⟩, ?_, ?_⟩
  · intro h
    exact ⟨by simp [enrichMovie, h], by simp [enrichMovie, h]⟩
  · intro h
    simp [enrichMovie, h]

theorem enrichment_annotations_witness :
    (enrichMovie ⟨some 7⟩ [] []).is_favorite = false ∧
    (enrichMovie ⟨some 7⟩ [] []).user_rating = none :=
  (enrichment_annotations ⟨some 7⟩ [] []).2.2.1 rfl

/-- `Except` success test (used to state the hard-failure policy). -/
def exceptOk {α : Type} : Except Unit α → Bool
  | Except.ok _ => true
  | Except.error _ => false

/-- `FavMap.find` on the empty mapping always misses. -/
theorem FavMap.find_nil (k : Option Int) : FavMap.find [] k = none := by
  cases k <;> rfl

/-- C3 counterexample: in `get_complete_dashboard` a failing primary
popular-movies call does not fail the aggregation — the endpoint still
returns a success response, substituting an empty popular list. -/
theorem complete_dashboard_survives_primary_failure :
    getCompleteDashboard (Except.error ()) (Except.ok ⟨[⟨some 550⟩], 1, 1⟩)
        (Except.ok []) (Except.ok []) =
      Except.ok
        { popular_movies := []
        , trending_movies := [⟨⟨some 550⟩, false, false, none⟩]
        , recommended_for_you := []
        , continue_watching := []
        , stats := ⟨0, 0, 0, none, []⟩
        , page := 1
        , total_pages := 1 } := rfl

/-- C3 (amended): `/feed` hard-fails exactly when its primary
popular-movies call fails; a failed secondary (favorites or watchlist)
leaves the response identical to the one computed with that context empty —
annotations at defaults, count 0, and the sibling secondary unaffected;
`/complete` never hard-fails, degrading each failed fetch independently. -/
theorem aggregation_partial_failure_policy (page : Nat)
    (popularE trendingE : Except Unit TMDBPage) (p : TMDBPage)
    (favoritesE : Except Unit FavMap) (watchlistE : Except Unit WlMap) :
    (exceptOk (getPersonalizedFeed page popularE favoritesE watchlistE) =
      exceptOk popularE) ∧
    (getPersonalizedFeed page (Except.ok p) (Except.error ()) watchlistE =
      getPersonalizedFeed page (Except.ok p) (Except.ok []) watchlistE) ∧
    (getPersonalizedFeed page (Except.ok p) favoritesE (Except.error ()) =
      getPersonalizedFeed page (Except.ok p) favoritesE (Except.ok [])) ∧
    (∀ feed, getPersonalizedFeed page (Except.ok p) (Except.error ())
        watchlistE = Except.ok feed →
      feed.favorites_count = 0 ∧
      ∀ m ∈ feed.movies, m.is_favorite = false ∧ m.user_rating = none) ∧
    (exceptOk (getCompleteDashboard popularE trendingE favoritesE
      watchlistE) = true) ∧
    (getCompleteDashboard popularE trendingE (Except.error ()) watchlistE =
      getCompleteDashboard popularE trendingE (Except.ok []) watchlistE) := by
  refine ⟨?_, rfl, rfl, ?_, rfl, rfl⟩
  · cases popularE <;> rfl
  · intro feed h
    injection h with h'
    subst h'
    refine ⟨rfl, ?_⟩
    intro m hm
    obtain ⟨m₀, hm₀, rfl⟩ := List.mem_map.mp hm
    exact ⟨by simp [enrichMovie, FavMap.find_nil],
      by simp [enrichMovie, FavMap.find_nil]⟩

theorem aggregation_partial_failure_policy_witness :
    (⟨[⟨⟨some 5⟩, false, false, none⟩], 1, 1, 1, 0, 0⟩ :
        PersonalizedFeed).favorites_count = 0 ∧
    ∀ m ∈ (⟨[⟨⟨some 5⟩, false, false, none⟩], 1, 1, 1, 0, 0⟩ :
        PersonalizedFeed).movies,
      m.is_favorite = false ∧ m.user_rating = none :=
  (aggregation_partial_failure_policy 1 (Except.ok ⟨[⟨some 5⟩], 1, 1⟩)
    (Except.ok ⟨[], 1, 0⟩) ⟨[⟨some 5⟩], 1, 1⟩ (Except.error ())
    (Except.ok [])).2.2.2.1 _ rfl

/-- C9: the dashboard average-rating statistic is absent (never a division
error and never 0) when no favorite carries a numeric rating, equals `9/2`
on the ratings `{5, 4}`, and in general is the arithmetic mean of exactly
the non-absent ratings among the favorites. -/
theorem avg_rating_semantics (favorites : FavMap)
    (popularE trendingE : Except Unit TMDBPage)
    (watchlistE : Except Unit WlMap) :
    favRatingAvg [] = none ∧
    ((∀ q ∈ favorites, q.2.rating = none) → favRatingAvg favorites = none) ∧
    favRatingAvg [(550, ⟨some 5, none⟩), (155, ⟨some 4, none⟩)] =
      some ((9 : ℚ) / 2) ∧
    (∀ rs, favorites.filterMap (fun q => q.2.rating) = rs → rs ≠ [] →
      favRatingAvg favorites = some (rs.sum / (rs.length : ℚ))) ∧
    ∃ dash, getCompleteDashboard popularE trendingE (Except.ok favorites)
        watchlistE = Except.ok dash ∧
      dash.stats.avg_rating = favRatingAvg favorites := by
  refine ⟨rfl, ?_,
    by
      norm_num [favRatingAvg, List.filterMap_cons, List.filterMap_nil]
      exact fun h => absurd h (by simp),
    ?_, ⟨_, rfl, rfl⟩⟩
  · intro hall
    have hnil : favorites.filterMap (fun q => q.2.rating) = [] :=
      List.filterMap_eq_nil_iff.mpr (fun q hq => hall q hq)
    simp [favRatingAvg, hnil]
  · intro rs hrs hne
    simp [favRatingAvg, hrs, hne]

theorem avg_rating_semantics_witness :
    favRatingAvg [(1, ⟨none, none⟩)] = none :=
  (avg_rating_semantics [(1, ⟨none, none⟩)] (Except.error ())
    (Except.error ()) (Except.error ())).2.1 (by decide)

end MovieDashboard
